import Mathlib

/-!
# Container provisioner: registry view, proxy leasing, configuration, admission

A shallow embedding of `container_provisioner/containers/helper.go` and
`container_provisioner/api/controllers.go`.

Go strings are embedded as Lean strings. Go pointers to strings (`*string`) are
embedded as `Option String`, the nil pointer being `none`. Operations that can
end the Go program (a run-time panic, or `utils.ErrorHandler` on a non-nil
error) return in `Except Failure`.
-/

/-- How an operation ends when it does not return. -/
inductive Failure where
  /-- The error handler was given a non-nil error carrying this message. -/
  | fatal (msg : String)
  /-- Run-time panic: slice bounds out of range. -/
  | sliceBounds
  /-- Run-time panic: nil pointer dereference. -/
  | nilDereference
  deriving DecidableEq

deriving instance DecidableEq for Except

/-- Go `s[:n]` on a string. It panics when `n` exceeds the length. Container
identifiers are hexadecimal ASCII, so byte and character positions coincide. -/
def sliceTo (s : String) (n : Nat) : Except Failure String :=
  if n ≤ s.length then .ok (String.mk (s.data.take n)) else .error Failure.sliceBounds

/-- Go `*p` (and `p.f` through a pointer): panics on the nil pointer. -/
def deref {α : Type} (p : Option α) : Except Failure α :=
  match p with
  | some a => .ok a
  | none => .error Failure.nilDereference

/-- Go `m[k]` on a `map[string]string`: the zero value `""` when the key is absent. -/
def mapIndex (m : List (String × String)) (k : String) : String :=
  (m.lookup k).getD ""

/-- Go `m[k]` on a map whose values are pointers: the nil pointer when the key
is absent. -/
def mapIndexPtr {α : Type} (m : List (String × Option α)) (k : String) : Option α :=
  (m.lookup k).getD none

namespace utils

/-- Modelled from the spec: `utils.ErrorHandler` is not among the sources. The
spec has an operation whose error reaches it fail (for instance the unknown role
"fails with InvalidRole"); a nil error lets the caller go on. -/
def ErrorHandler (err : Option String) : Except Failure Unit :=
  match err with
  | none => .ok ()
  | some msg => .error (Failure.fatal msg)

end utils

namespace network

/-- The part of Docker's `network.EndpointSettings` the provisioner reads. -/
structure EndpointSettings where
  IPAddress : String
  deriving DecidableEq

end network

namespace types

/-- Docker's `types.SummaryNetworkSettings`: network name to endpoint pointer. -/
structure SummaryNetworkSettings where
  Networks : List (String × Option network.EndpointSettings)
  deriving DecidableEq

/-- The part of Docker's `types.Container` (one entry of a container listing)
the provisioner reads. -/
structure Container where
  ID : String
  Labels : List (String × String)
  NetworkSettings : Option SummaryNetworkSettings
  deriving DecidableEq

end types

/-- The container runtime as the provisioner sees it: the error (if any) of
building a client, and the outcome of listing the running containers. -/
structure DockerDaemon where
  newClient : Option String
  containerList : Except String (List types.Container)

/-- A daemon that is reachable and reports the given running containers. -/
def DockerDaemon.running (cs : List types.Container) : DockerDaemon :=
  { newClient := none, containerList := .ok cs }

namespace container

/-- The part of Docker's `container.Config` the provisioner fills in. -/
structure Config where
  Image : String
  Labels : List (String × String)
  Env : List String
  Tty : Bool
  deriving DecidableEq

end container

namespace containers

def containerImage : String := "ghcr.io/algo7/tripadvisor-review-scraper/scraper:latest"

/-- The `Container` record of helper.go: every field is a `*string`. -/
structure Container where
  ContainerID : Option String := none
  TaskOwner : Option String := none
  TargetName : Option String := none
  URL : Option String := none
  IPAddress : Option String := none
  VPNRegion : Option String := none
  VPNSOCKSPort : Option String := none
  VPNHTTPPort : Option String := none
  deriving DecidableEq

/-- The `switch scrapeTarget` of `ContainerConfigGenerator`: the two
target-specific environment entries, both empty for an unlisted target. -/
def targetEnv (scrapeTarget scrapeTargetName scrapeURL : String) : String × String :=
  if scrapeTarget = "HOTEL" then
    ("HOTEL_URL=" ++ scrapeURL, "HOTEL_NAME=" ++ scrapeTargetName)
  else if scrapeTarget = "RESTO" then
    ("RESTO_URL=" ++ scrapeURL, "RESTO_NAME=" ++ scrapeTargetName)
  else if scrapeTarget = "AIRLINE" then
    ("AIRLINE_URL=" ++ scrapeURL, "AIRLINE_NAME=" ++ scrapeTargetName)
  else
    ("", "")

/-- `ContainerConfigGenerator` of helper.go. -/
def ContainerConfigGenerator (scrapeTarget scrapeTargetName scrapeURL uploadIdentifier
    proxyAddress proxyLocation proxyPort : String) : container.Config :=
  let scrapeContainerURL := (targetEnv scrapeTarget scrapeTargetName scrapeURL).1
  let targetName := (targetEnv scrapeTarget scrapeTargetName scrapeURL).2
  let scrapeMode := "SCRAPE_MODE=" ++ scrapeTarget
  let proxySettings := "PROXY_ADDRESS=socks5://" ++ proxyAddress ++ ":" ++ proxyPort
  { Image := containerImage
    Labels := [("TaskOwner", uploadIdentifier), ("Target", scrapeTargetName),
      ("vpn.region", proxyLocation)]
    Env := ["CONCURRENCY=2", "IS_PROVISIONER=true", scrapeMode, scrapeContainerURL,
      targetName, proxySettings]
    Tty := true }

/-- One pass through the body of the `for` loop of `ListContainersByType`:
the list built so far, extended or not by the record of `containerInfo`. -/
def listIteration (containerType : String) (containerInfo : types.Container)
    (containers : List Container) : Except Failure (List Container) :=
  match sliceTo containerInfo.ID 12 with
  | .error e => .error e
  | .ok containerID =>
    let taskOwner := mapIndex containerInfo.Labels "TaskOwner"
    let targetName := mapIndex containerInfo.Labels "Target"
    let vpnRegion := mapIndex containerInfo.Labels "vpn.region"
    let vpnSOCKSPort := mapIndex containerInfo.Labels "vpn.socks.port"
    let vpnHTTPPort := mapIndex containerInfo.Labels "vpn.http.port"
    match sliceTo containerInfo.ID 12 with
    | .error e => .error e
    | .ok shortID =>
      let url := "/logs-viewer?container_id=" ++ shortID
      if containerType = "scraper" then
        if taskOwner ≠ "" ∧ taskOwner ≠ "PROXY" then
          .ok (containers ++ [{
            ContainerID := some containerID,
            URL := some url,
            TaskOwner := some taskOwner,
            TargetName := some targetName,
            VPNRegion := some vpnRegion }])
        else
          .ok containers
      else if containerType = "proxy" then
        if taskOwner = "PROXY" then
          match deref containerInfo.NetworkSettings with
          | .error e => .error e
          | .ok settings =>
            match deref (mapIndexPtr settings.Networks "scraper_vpn") with
            | .error e => .error e
            | .ok endpoint =>
              .ok (containers ++ [{
                ContainerID := some containerID,
                VPNRegion := some vpnRegion,
                IPAddress := some endpoint.IPAddress,
                VPNSOCKSPort := some vpnSOCKSPort,
                VPNHTTPPort := some vpnHTTPPort }])
        else
          .ok containers
      else
        match utils.ErrorHandler (some "Invalid container type") with
        | .error e => .error e
        | .ok _ => .ok containers

/-- The `for` loop of `ListContainersByType` over the listing. -/
def listLoop (containerType : String) :
    List types.Container → List Container → Except Failure (List Container)
  | [], containers => .ok containers
  | containerInfo :: rest, containers =>
    match listIteration containerType containerInfo containers with
    | .error e => .error e
    | .ok containers' => listLoop containerType rest containers'

/-- `ListContainersByType` of helper.go. -/
def ListContainersByType (docker : DockerDaemon) (containerType : String) :
    Except Failure (List Container) :=
  match utils.ErrorHandler docker.newClient with
  | .error e => .error e
  | .ok _ =>
    match docker.containerList with
    | .error msg =>
      match utils.ErrorHandler (some msg) with
      | .error e => .error e
      | .ok _ => listLoop containerType [] []
    | .ok containersInfo => listLoop containerType containersInfo []

/-- The `ProxyContainer` record of helper.go; `{}` is Go's zero value. -/
structure ProxyContainer where
  ContainerID : String := ""
  LockKey : String := ""
  IPAddress : String := ""
  VPNRegion : String := ""
  VPNSOCKSPort : String := ""
  VPNHTTPPort : String := ""
  deriving DecidableEq

end containers

namespace database

/-- An operation issued to the lease store. -/
inductive StoreCall where
  | setIfAbsent (key : String)
  | delete (key : String)
  deriving DecidableEq

/-- The lease store: the keys it holds, and the log of the operations issued
to it so far (oldest first). -/
structure LeaseStore where
  keys : List String
  calls : List StoreCall
  deriving DecidableEq

/-- Modelled from the spec: `database.SetLock` is not among the sources. It is
the store's atomic set-if-absent: it succeeds, adding the key, exactly when the
key is absent. -/
def SetLock (key : String) (store : LeaseStore) : Bool × LeaseStore :=
  if key ∈ store.keys then
    (false, { keys := store.keys, calls := store.calls ++ [StoreCall.setIfAbsent key] })
  else
    (true, { keys := key :: store.keys, calls := store.calls ++ [StoreCall.setIfAbsent key] })

/-- Modelled from the spec: `database.ReleaseLock` is not among the sources. It
is the store's unconditional delete of the key. -/
def ReleaseLock (key : String) (store : LeaseStore) : LeaseStore :=
  { keys := store.keys.filter (fun k => decide (k ≠ key)),
    calls := store.calls ++ [StoreCall.delete key] }

end database

namespace containers

/-- One pass through the body of the `for` loop of `AcquireProxyContainer`:
`some lease` when the function returns from inside the loop, `none` when the
loop goes on to the next proxy. The store is returned in every case, a panic
after the lock was set included. -/
def acquireIteration (proxy : Container) (store : database.LeaseStore) :
    Except Failure (Option ProxyContainer) × database.LeaseStore :=
  match deref proxy.ContainerID with
  | .error e => (.error e, store)
  | .ok containerID =>
    let lockKey := "proxy-usage:" ++ containerID
    let locked := database.SetLock lockKey store
    if locked.1 then
      match deref proxy.IPAddress with
      | .error e => (.error e, locked.2)
      | .ok ipAddress =>
        match deref proxy.VPNRegion with
        | .error e => (.error e, locked.2)
        | .ok vpnRegion =>
          match deref proxy.VPNSOCKSPort with
          | .error e => (.error e, locked.2)
          | .ok vpnSOCKSPort =>
            match deref proxy.VPNHTTPPort with
            | .error e => (.error e, locked.2)
            | .ok vpnHTTPPort =>
              (.ok (some {
                ContainerID := containerID,
                LockKey := lockKey,
                IPAddress := ipAddress,
                VPNRegion := vpnRegion,
                VPNSOCKSPort := vpnSOCKSPort,
                VPNHTTPPort := vpnHTTPPort }), locked.2)
    else
      (.ok none, locked.2)

/-- The `for` loop of `AcquireProxyContainer` and the `return ProxyContainer{}`
that follows it. -/
def acquireLoop : List Container → database.LeaseStore →
    Except Failure ProxyContainer × database.LeaseStore
  | [], store => (.ok {}, store)
  | proxy :: rest, store =>
    match acquireIteration proxy store with
    | (.error e, store') => (.error e, store')
    | (.ok (some lease), store') => (.ok lease, store')
    | (.ok none, store') => acquireLoop rest store'

/-- `AcquireProxyContainer` of helper.go. -/
def AcquireProxyContainer (docker : DockerDaemon) (store : database.LeaseStore) :
    Except Failure ProxyContainer × database.LeaseStore :=
  match ListContainersByType docker "proxy" with
  | .error e => (.error e, store)
  | .ok availableProxies => acquireLoop availableProxies store

/-- `ReleaseProxyContainer` of helper.go (its log line is not modelled). -/
def ReleaseProxyContainer (containerID : String) (store : database.LeaseStore) :
    database.LeaseStore :=
  let lockKey := "proxy-usage:" ++ containerID
  database.ReleaseLock lockKey store

/-! ### Interleaved acquisitions

Several calls of `AcquireProxyContainer` run against one lease store. Each call
advances by atomic steps: listing the proxies, then one pass of its loop (one
set-if-absent) per step. Releases may be interleaved. -/

/-- Where one call of `AcquireProxyContainer` stands. -/
inductive Attempt where
  /-- Not yet begun; `docker` is the runtime it will list. -/
  | notStarted (docker : DockerDaemon)
  /-- Inside the loop, with these proxies still to try. -/
  | scanning (remaining : List Container)
  /-- The call has returned this value. -/
  | returned (result : ProxyContainer)
  /-- The call ended in a failure. -/
  | crashed (e : Failure)

/-- One atomic step of a call. -/
def Attempt.advance (a : Attempt) (store : database.LeaseStore) :
    Attempt × database.LeaseStore :=
  match a with
  | .notStarted docker =>
    match ListContainersByType docker "proxy" with
    | .error e => (.crashed e, store)
    | .ok availableProxies => (.scanning availableProxies, store)
  | .scanning [] => (.returned {}, store)
  | .scanning (proxy :: rest) =>
    match acquireIteration proxy store with
    | (.error e, store') => (.crashed e, store')
    | (.ok (some lease), store') => (.returned lease, store')
    | (.ok none, store') => (.scanning rest, store')
  | .returned result => (.returned result, store)
  | .crashed e => (.crashed e, store)

/-- The call is over. -/
def Attempt.finished : Attempt → Bool
  | .returned _ => true
  | .crashed _ => true
  | _ => false

/-- The call returned a lease (anything but the zero value). -/
def Attempt.succeeded : Attempt → Bool
  | .returned result => decide (result ≠ {})
  | _ => false

/-- The call returned a lease on the proxy with this identifier. -/
def Attempt.succeededFor (containerID : String) : Attempt → Bool
  | .returned result => decide (result ≠ {}) && decide (result.ContainerID = containerID)
  | _ => false

/-- The lease store together with the calls in flight. -/
structure System where
  store : database.LeaseStore
  attempts : List Attempt

/-- What the scheduler lets happen next. -/
inductive Event where
  /-- The call at this position takes its next atomic step. -/
  | advance (i : Nat)
  /-- Somebody releases the lease of this proxy. -/
  | release (containerID : String)
  deriving DecidableEq

def System.step (s : System) : Event → System
  | .advance i =>
    match s.attempts[i]? with
    | none => s
    | some a => { store := (a.advance s.store).2, attempts := s.attempts.set i (a.advance s.store).1 }
  | .release containerID =>
    { store := ReleaseProxyContainer containerID s.store, attempts := s.attempts }

/-- The system after the events of a schedule, in order. -/
def System.run (s : System) (schedule : List Event) : System :=
  schedule.foldl System.step s

/-- One call per listed runtime snapshot, none of them begun. -/
def System.start (store : database.LeaseStore) (dockers : List DockerDaemon) : System :=
  { store := store, attempts := dockers.map Attempt.notStarted }

end containers

namespace api

def R2Url : String := "https://storage.algo7.tools/reviews/"

/-- The functions of the repository that `postProvision` calls and that are
not among the sources, taken as parameters; `CountRunningContainer` stands for
the value its call returns. -/
structure Collaborators where
  ValidateEmailAddress : String → Bool
  ValidateTripAdvisorHotelURL : String → Bool
  CountRunningContainer : Int
  GenerateUUID : String
  GetHotelNameFromURL : String → String

/-- What `c.Render` is given: the template and its bindings. -/
structure Rendered where
  template : String
  bindings : List (String × String)
  deriving DecidableEq

/-- What `postProvision` sets in motion besides its response. -/
inductive Effect where
  /-- The statement `go containers.Provision(uploadIdentifier, url)`. -/
  | goProvision (uploadIdentifier : String) (url : String)
  deriving DecidableEq

/-- `postProvision` of controllers.go, on the form values `url` and `email`. -/
def postProvision (env : Collaborators) (url email : String) : Rendered × List Effect :=
  if env.ValidateEmailAddress email = false then
    ({ template := "submission",
       bindings := [("Title", "Algo7 TripAdvisor Scraper"), ("Message", "Invalid email address")] },
     [])
  else if env.ValidateTripAdvisorHotelURL url = false then
    ({ template := "submission",
       bindings := [("Title", "Algo7 TripAdvisor Scraper"), ("Message", "Invalid URL")] },
     [])
  else
    let runningContainers := env.CountRunningContainer
    if runningContainers ≥ 5 then
      ({ template := "submission",
         bindings := [("Title", "Algo7 TripAdvisor Scraper"),
           ("Message", "Sorry, we are currently busy. Please try again later")] },
       [])
    else
      let fileId := env.GenerateUUID
      let hotelName := env.GetHotelNameFromURL url
      ({ template := "submission",
         bindings := [("Title", "Algo7 TripAdvisor Scraper"),
           ("Message1", "Your request has been submitted. "),
           ("Message2", "Please check the following link for your data:"),
           ("URL", R2Url ++ fileId ++ "-" ++ "0" ++ "_" ++ hotelName ++ ".csv"),
           ("Message4", "Your data should be available shortly.")] },
       [Effect.goProvision fileId url])

end api

/-! ## Vocabulary for the statements -/

namespace containers

/-- The value of the `TaskOwner` label, `""` when the label is absent. -/
def taskOwner (c : types.Container) : String := mapIndex c.Labels "TaskOwner"

/-- Worker role: `TaskOwner` is non-empty and is not "PROXY". -/
def isWorker (c : types.Container) : Bool :=
  decide (taskOwner c ≠ "" ∧ taskOwner c ≠ "PROXY")

/-- Proxy role: `TaskOwner` is "PROXY". -/
def isProxy (c : types.Container) : Bool := decide (taskOwner c = "PROXY")

/-- The first 12 characters of the container's identifier. -/
def shortID (c : types.Container) : String := String.mk (c.ID.data.take 12)

/-- The endpoint the container has on the network "scraper_vpn", if it is a
member of that network. -/
def vpnEndpoint (c : types.Container) : Option network.EndpointSettings :=
  match c.NetworkSettings with
  | none => none
  | some settings => mapIndexPtr settings.Networks "scraper_vpn"

/-- The record listed for a worker container. -/
def workerRecord (c : types.Container) : Container :=
  { ContainerID := some (shortID c),
    URL := some ("/logs-viewer?container_id=" ++ shortID c),
    TaskOwner := some (taskOwner c),
    TargetName := some (mapIndex c.Labels "Target"),
    VPNRegion := some (mapIndex c.Labels "vpn.region") }

/-- The record listed for a proxy container that is on "scraper_vpn". -/
def proxyRecord (c : types.Container) : Container :=
  { ContainerID := some (shortID c),
    VPNRegion := some (mapIndex c.Labels "vpn.region"),
    IPAddress := (vpnEndpoint c).map (fun endpoint => endpoint.IPAddress),
    VPNSOCKSPort := some (mapIndex c.Labels "vpn.socks.port"),
    VPNHTTPPort := some (mapIndex c.Labels "vpn.http.port") }

/-- The lease-store key of a listed proxy record. -/
def lockKeyOf (proxy : Container) : String := "proxy-usage:" ++ proxy.ContainerID.getD ""

/-- At most one call holds a lease on `x`, and then the key of `x` is held. -/
def LeaseInvariant (x : String) (s : System) : Prop :=
  s.attempts.countP (Attempt.succeededFor x) = 0 ∨
    (s.attempts.countP (Attempt.succeededFor x) = 1 ∧ ("proxy-usage:" ++ x) ∈ s.store.keys)

/-- The lease on the proxy with identifier `id` and these connection details. -/
def leaseOn (id ip region socks http : String) : ProxyContainer :=
  { ContainerID := id,
    LockKey := "proxy-usage:" ++ id,
    IPAddress := ip,
    VPNRegion := region,
    VPNSOCKSPort := socks,
    VPNHTTPPort := http }

/-- A bound on the atomic steps a call still has to take. -/
def Attempt.stepsLeft : Attempt → Nat
  | .notStarted _ => 3
  | .scanning remaining => remaining.length + 1
  | .returned _ => 0
  | .crashed _ => 0

/-- A call that has not reached the lease store yet, in a pool whose only
proxy record is `p`. -/
def Attempt.Early (dockers : List DockerDaemon) (p : Container) (a : Attempt) : Prop :=
  (∃ d ∈ dockers, a = Attempt.notStarted d) ∨ a = Attempt.scanning [p]

/-- The states a call goes through in a pool whose only proxy record is `p`,
`lease` being the lease on `p`. -/
def Attempt.Allowed (dockers : List DockerDaemon) (p : Container) (lease : ProxyContainer)
    (a : Attempt) : Prop :=
  Attempt.Early dockers p a ∨ a = Attempt.scanning [] ∨ a = Attempt.returned {} ∨
    a = Attempt.returned lease

/-- The invariant of a pool of one proxy `p` with identifier `x`: while its key
is free no call has gone past it, and once the key is held exactly one call has
succeeded. -/
def PoolInvariant (dockers : List DockerDaemon) (p : Container) (x : String)
    (lease : ProxyContainer) (s : System) : Prop :=
  (∀ a ∈ s.attempts, Attempt.Allowed dockers p lease a) ∧
  (("proxy-usage:" ++ x) ∉ s.store.keys → ∀ a ∈ s.attempts, Attempt.Early dockers p a) ∧
  (("proxy-usage:" ++ x) ∈ s.store.keys → s.attempts.countP Attempt.succeeded = 1)

/-- What a call of `AcquireProxyContainer` that ran alone leaves behind, as the
final state of a call and the store. -/
def Attempt.ofOutcome (r : Except Failure ProxyContainer × database.LeaseStore) :
    Attempt × database.LeaseStore :=
  match r with
  | (.ok result, store) => (Attempt.returned result, store)
  | (.error e, store) => (Attempt.crashed e, store)

/-- The call and the store after `n` atomic steps of the call alone. -/
def Attempt.advanceMany : Nat → Attempt × database.LeaseStore → Attempt × database.LeaseStore
  | 0, r => r
  | n + 1, r => Attempt.advanceMany n (r.1.advance r.2)

end containers

/-! ## Concrete inputs used by the witnesses -/

namespace Sample

/-- A worker of owner "u-1" scraping "Ritz". -/
def worker : types.Container :=
  { ID := "aaaaaaaaaaaaaaaa", Labels := [("TaskOwner", "u-1"), ("Target", "Ritz")],
    NetworkSettings := none }

/-- A container without provisioner labels. -/
def unrelated : types.Container :=
  { ID := "bbbbbbbbbbbbbbbb", Labels := [], NetworkSettings := none }

/-- A proxy on "scraper_vpn" at 10.0.0.5. -/
def proxy : types.Container :=
  { ID := "cccccccccccccccc",
    Labels := [("TaskOwner", "PROXY"), ("vpn.region", "nl"), ("vpn.socks.port", "1080"),
      ("vpn.http.port", "8080")],
    NetworkSettings := some { Networks := [("scraper_vpn", some { IPAddress := "10.0.0.5" })] } }

/-- A second proxy on "scraper_vpn", at 10.0.0.6. -/
def proxy2 : types.Container :=
  { ID := "dddddddddddddddd",
    Labels := [("TaskOwner", "PROXY"), ("vpn.region", "de"), ("vpn.socks.port", "1080"),
      ("vpn.http.port", "8080")],
    NetworkSettings := some { Networks := [("scraper_vpn", some { IPAddress := "10.0.0.6" })] } }

/-- A container labelled as a proxy that is on the network "bridge" only. -/
def bridgeOnlyProxy : types.Container :=
  { ID := "0123456789abcdef0123", Labels := [("TaskOwner", "PROXY")],
    NetworkSettings := some { Networks := [("bridge", some { IPAddress := "172.17.0.2" })] } }

/-- The handler's collaborators when both validations pass and five workers
are reported running. -/
def busyEnv : api.Collaborators :=
  { ValidateEmailAddress := fun _ => true,
    ValidateTripAdvisorHotelURL := fun _ => true,
    CountRunningContainer := 5,
    GenerateUUID := "id-1",
    GetHotelNameFromURL := fun _ => "Ritz" }

/-- A running container created from a generated configuration. -/
def launched : types.Container :=
  { ID := "eeeeeeeeeeeeeeee",
    Labels := (containers.ContainerConfigGenerator "HOTEL" "Ritz"
      "https://www.tripadvisor.com/Hotel_Review-x" "u-1" "10.0.0.5" "nl" "1080").Labels,
    NetworkSettings := none }

/-- A lease store in which the proxy `cccccccccccc` is leased. -/
def storeWithLease : database.LeaseStore :=
  { keys := ["proxy-usage:cccccccccccc"], calls := [] }

/-- Two calls, each listing the pool whose only proxy is `proxy`. -/
def twoCallers : List DockerDaemon :=
  [DockerDaemon.running [Sample.worker, Sample.proxy], DockerDaemon.running [Sample.proxy]]

/-- An interleaving of the two calls, with a release of another proxy in between. -/
def interleaving : List containers.Event :=
  [containers.Event.advance 0, containers.Event.advance 1, containers.Event.advance 1,
   containers.Event.release "dddddddddddd", containers.Event.advance 0,
   containers.Event.advance 1, containers.Event.advance 0]

/-- An empty lease store. -/
def emptyStore : database.LeaseStore := { keys := [], calls := [] }

end Sample

/-! ## Theorems -/

/-! ### The registry view -/

namespace containers

theorem sliceTo_of_le (s : String) (n : Nat) (h : n ≤ s.length) :
    sliceTo s n = .ok (String.mk (s.data.take n)) := by
  simp [sliceTo, h]

theorem sliceTo_of_lt (s : String) (n : Nat) (h : s.length < n) :
    sliceTo s n = .error Failure.sliceBounds := by
  have : ¬ n ≤ s.length := by omega
  simp [sliceTo, this]

theorem listIteration_short (containerType : String) (c : types.Container)
    (acc : List Container) (h : c.ID.length < 12) :
    listIteration containerType c acc = .error Failure.sliceBounds := by
  simp [listIteration, sliceTo_of_lt _ _ h]

theorem listIteration_scraper (c : types.Container) (acc : List Container)
    (h : 12 ≤ c.ID.length) :
    listIteration "scraper" c acc =
      .ok (if isWorker c then acc ++ [workerRecord c] else acc) := by
  simp only [listIteration, sliceTo_of_le _ _ h, isWorker, workerRecord, taskOwner, shortID]
  by_cases hw : mapIndex c.Labels "TaskOwner" ≠ "" ∧ mapIndex c.Labels "TaskOwner" ≠ "PROXY"
  · simp [hw]
  · simp [hw]

theorem listIteration_proxy_skip (c : types.Container) (acc : List Container)
    (h : 12 ≤ c.ID.length) (hp : isProxy c = false) :
    listIteration "proxy" c acc = .ok acc := by
  have hp' : ¬ mapIndex c.Labels "TaskOwner" = "PROXY" := by
    simpa [isProxy, taskOwner] using hp
  simp [listIteration, sliceTo_of_le _ _ h, hp']

theorem listIteration_proxy_member (c : types.Container) (acc : List Container)
    (h : 12 ≤ c.ID.length) (hp : isProxy c = true) (endpoint : network.EndpointSettings)
    (he : vpnEndpoint c = some endpoint) :
    listIteration "proxy" c acc = .ok (acc ++ [proxyRecord c]) := by
  have hp' : mapIndex c.Labels "TaskOwner" = "PROXY" := by
    simpa [isProxy, taskOwner] using hp
  cases hn : c.NetworkSettings with
  | none => simp [vpnEndpoint, hn] at he
  | some settings =>
    have he' : mapIndexPtr settings.Networks "scraper_vpn" = some endpoint := by
      simpa [vpnEndpoint, hn] using he
    simp [listIteration, sliceTo_of_le _ _ h, hp', hn, deref, he', proxyRecord, shortID,
      vpnEndpoint]

theorem listIteration_proxy_absent (c : types.Container) (acc : List Container)
    (h : 12 ≤ c.ID.length) (hp : isProxy c = true) (he : vpnEndpoint c = none) :
    listIteration "proxy" c acc = .error Failure.nilDereference := by
  have hp' : mapIndex c.Labels "TaskOwner" = "PROXY" := by
    simpa [isProxy, taskOwner] using hp
  cases hn : c.NetworkSettings with
  | none => simp [listIteration, sliceTo_of_le _ _ h, hp', hn, deref]
  | some settings =>
    have he' : mapIndexPtr settings.Networks "scraper_vpn" = none := by
      simpa [vpnEndpoint, hn] using he
    simp [listIteration, sliceTo_of_le _ _ h, hp', hn, deref, he']

theorem listIteration_unknown (containerType : String) (c : types.Container)
    (acc : List Container) (h : 12 ≤ c.ID.length)
    (hs : containerType ≠ "scraper") (hp : containerType ≠ "proxy") :
    listIteration containerType c acc = .error (Failure.fatal "Invalid container type") := by
  simp [listIteration, sliceTo_of_le _ _ h, hs, hp, utils.ErrorHandler]

theorem listLoop_scraper (cs : List types.Container) (acc : List Container)
    (h : ∀ c ∈ cs, 12 ≤ c.ID.length) :
    listLoop "scraper" cs acc = .ok (acc ++ (cs.filter isWorker).map workerRecord) := by
  induction cs generalizing acc with
  | nil => simp [listLoop]
  | cons c rest ih =>
    have hc : 12 ≤ c.ID.length := h c (List.mem_cons_self _ _)
    have hrest : ∀ d ∈ rest, 12 ≤ d.ID.length := fun d hd => h d (List.mem_cons_of_mem _ hd)
    simp only [listLoop, listIteration_scraper c acc hc]
    rw [ih _ hrest]
    cases hw : isWorker c <;> simp [List.filter_cons, hw]

theorem listLoop_proxy (cs : List types.Container) (acc : List Container)
    (h : ∀ c ∈ cs, 12 ≤ c.ID.length)
    (hv : ∀ c ∈ cs, isProxy c = true → vpnEndpoint c ≠ none) :
    listLoop "proxy" cs acc = .ok (acc ++ (cs.filter isProxy).map proxyRecord) := by
  induction cs generalizing acc with
  | nil => simp [listLoop]
  | cons c rest ih =>
    have hc : 12 ≤ c.ID.length := h c (List.mem_cons_self _ _)
    have hrest : ∀ d ∈ rest, 12 ≤ d.ID.length := fun d hd => h d (List.mem_cons_of_mem _ hd)
    have hvrest : ∀ d ∈ rest, isProxy d = true → vpnEndpoint d ≠ none :=
      fun d hd => hv d (List.mem_cons_of_mem _ hd)
    cases hp : isProxy c with
    | false =>
      simp only [listLoop, listIteration_proxy_skip c acc hc hp]
      rw [ih _ hrest hvrest]
      simp [List.filter_cons, hp]
    | true =>
      obtain ⟨endpoint, he⟩ := Option.ne_none_iff_exists'.mp (hv c (List.mem_cons_self _ _) hp)
      simp only [listLoop, listIteration_proxy_member c acc hc hp endpoint he]
      rw [ih _ hrest hvrest]
      simp [List.filter_cons, hp]

/-- A proxy listing that returns has met no short identifier and no proxy
outside "scraper_vpn". -/
theorem listLoop_proxy_ok (cs : List types.Container) (acc rs : List Container)
    (h : listLoop "proxy" cs acc = .ok rs) :
    (∀ c ∈ cs, 12 ≤ c.ID.length) ∧ (∀ c ∈ cs, isProxy c = true → vpnEndpoint c ≠ none) := by
  induction cs generalizing acc with
  | nil => simp
  | cons c rest ih =>
    by_cases hc : 12 ≤ c.ID.length
    · cases hp : isProxy c with
      | false =>
        simp only [listLoop, listIteration_proxy_skip c acc hc hp] at h
        obtain ⟨h1, h2⟩ := ih _ h
        refine ⟨?_, ?_⟩
        · intro d hd
          rcases List.mem_cons.mp hd with rfl | hd
          · exact hc
          · exact h1 d hd
        · intro d hd hdp
          rcases List.mem_cons.mp hd with rfl | hd
          · simp [hp] at hdp
          · exact h2 d hd hdp
      | true =>
        cases he : vpnEndpoint c with
        | none =>
          simp [listLoop, listIteration_proxy_absent c acc hc hp he] at h
        | some endpoint =>
          simp only [listLoop, listIteration_proxy_member c acc hc hp endpoint he] at h
          obtain ⟨h1, h2⟩ := ih _ h
          refine ⟨?_, ?_⟩
          · intro d hd
            rcases List.mem_cons.mp hd with rfl | hd
            · exact hc
            · exact h1 d hd
          · intro d hd hdp
            rcases List.mem_cons.mp hd with rfl | hd
            · simp [he]
            · exact h2 d hd hdp
    · have hlt : c.ID.length < 12 := by omega
      simp [listLoop, listIteration_short "proxy" c acc hlt] at h

theorem ListContainersByType_running (cs : List types.Container) (containerType : String) :
    ListContainersByType (DockerDaemon.running cs) containerType =
      listLoop containerType cs [] := by
  simp [ListContainersByType, DockerDaemon.running, utils.ErrorHandler]

/-- What a proxy listing that returns has returned, whatever the runtime. -/
theorem ListContainersByType_proxy_ok (docker : DockerDaemon) (rs : List Container)
    (h : ListContainersByType docker "proxy" = .ok rs) :
    ∃ cs, docker.containerList = .ok cs ∧
      (∀ c ∈ cs, isProxy c = true → vpnEndpoint c ≠ none) ∧
      rs = (cs.filter isProxy).map proxyRecord := by
  cases hn : docker.newClient with
  | some msg => simp [ListContainersByType, hn, utils.ErrorHandler] at h
  | none =>
    cases hl : docker.containerList with
    | error msg => simp [ListContainersByType, hn, hl, utils.ErrorHandler] at h
    | ok cs =>
      simp only [ListContainersByType, hn, hl, utils.ErrorHandler] at h
      obtain ⟨h1, h2⟩ := listLoop_proxy_ok cs [] rs h
      refine ⟨cs, rfl, h2, ?_⟩
      rw [listLoop_proxy cs [] h1 h2] at h
      simpa using (Except.ok.inj h).symm


/-! ### Proxy leasing -/

theorem acquireIteration_taken (q : Container) (store : database.LeaseStore) (id : String)
    (hid : q.ContainerID = some id) (hk : ("proxy-usage:" ++ id) ∈ store.keys) :
    acquireIteration q store =
      (.ok none, { keys := store.keys,
                   calls := store.calls ++ [database.StoreCall.setIfAbsent ("proxy-usage:" ++ id)] }) := by
  simp [acquireIteration, hid, deref, database.SetLock, hk]

theorem acquireIteration_free (q : Container) (store : database.LeaseStore)
    (id ip region socks http : String)
    (hid : q.ContainerID = some id) (hip : q.IPAddress = some ip)
    (hregion : q.VPNRegion = some region) (hsocks : q.VPNSOCKSPort = some socks)
    (hhttp : q.VPNHTTPPort = some http) (hk : ("proxy-usage:" ++ id) ∉ store.keys) :
    acquireIteration q store =
      (.ok (some { ContainerID := id, LockKey := "proxy-usage:" ++ id, IPAddress := ip,
                   VPNRegion := region, VPNSOCKSPort := socks, VPNHTTPPort := http }),
       { keys := ("proxy-usage:" ++ id) :: store.keys,
         calls := store.calls ++ [database.StoreCall.setIfAbsent ("proxy-usage:" ++ id)] }) := by
  simp [acquireIteration, hid, hip, hregion, hsocks, hhttp, deref, database.SetLock, hk]

/-- Every record of a proxy listing has the five fields `AcquireProxyContainer`
dereferences. -/
theorem listed_proxy_fields (docker : DockerDaemon) (rs : List Container)
    (h : ListContainersByType docker "proxy" = .ok rs) (q : Container) (hq : q ∈ rs) :
    ∃ id ip region socks http, q.ContainerID = some id ∧ q.IPAddress = some ip ∧
      q.VPNRegion = some region ∧ q.VPNSOCKSPort = some socks ∧ q.VPNHTTPPort = some http := by
  obtain ⟨cs, _, hv, hrs⟩ := ListContainersByType_proxy_ok docker rs h
  subst hrs
  obtain ⟨c, hc, rfl⟩ := List.mem_map.mp hq
  obtain ⟨hc1, hc2⟩ := List.mem_filter.mp hc
  obtain ⟨endpoint, he⟩ := Option.ne_none_iff_exists'.mp (hv c hc1 hc2)
  exact ⟨shortID c, endpoint.IPAddress, _, _, _, rfl, by simp [proxyRecord, he], rfl, rfl, rfl⟩

/-- The loop passes over proxies whose keys are held, one set-if-absent each. -/
theorem acquireLoop_skip (pre rest : List Container) (store : database.LeaseStore)
    (hf : ∀ q ∈ pre, ∃ id, q.ContainerID = some id)
    (hk : ∀ q ∈ pre, lockKeyOf q ∈ store.keys) :
    acquireLoop (pre ++ rest) store =
      acquireLoop rest { keys := store.keys,
                         calls := store.calls ++
                           pre.map (fun q => database.StoreCall.setIfAbsent (lockKeyOf q)) } := by
  induction pre generalizing store with
  | nil => simp
  | cons q pre ih =>
    obtain ⟨id, hid⟩ := hf q (List.mem_cons_self _ _)
    have hkq : ("proxy-usage:" ++ id) ∈ store.keys := by
      have := hk q (List.mem_cons_self _ _)
      simpa [lockKeyOf, hid] using this
    have hlk : lockKeyOf q = "proxy-usage:" ++ id := by simp [lockKeyOf, hid]
    simp only [List.cons_append, acquireLoop, acquireIteration_taken q store id hid hkq]
    show acquireLoop (pre ++ rest) _ = _
    rw [ih { keys := store.keys,
             calls := store.calls ++ [database.StoreCall.setIfAbsent ("proxy-usage:" ++ id)] }
      (fun r hr => hf r (List.mem_cons_of_mem _ hr))
      (fun r hr => hk r (List.mem_cons_of_mem _ hr))]
    simp [hlk]

/-! ### Interleaved acquisitions -/

theorem lockKey_injective (a b : String) (h : "proxy-usage:" ++ a = "proxy-usage:" ++ b) :
    a = b := by
  have h' := congrArg String.data h
  simp only [String.data_append] at h'
  exact String.ext (List.append_cancel_left h')

theorem lockKey_ne_empty (a : String) : "proxy-usage:" ++ a ≠ "" := by
  intro h
  have h' := congrArg String.data h
  simp at h'

theorem lease_ne_zero (id ip region socks http : String) :
    ({ ContainerID := id, LockKey := "proxy-usage:" ++ id, IPAddress := ip, VPNRegion := region,
       VPNSOCKSPort := socks, VPNHTTPPort := http } : ProxyContainer) ≠ {} := by
  intro h
  exact lockKey_ne_empty id (congrArg ProxyContainer.LockKey h)

/-- One pass of the acquisition loop never removes a key, and it returns a lease
only on a key that was free and is held afterwards. -/
theorem acquireIteration_spec (q : Container) (store : database.LeaseStore) :
    (∀ k ∈ store.keys, k ∈ (acquireIteration q store).2.keys) ∧
    (∀ lease, (acquireIteration q store).1 = .ok (some lease) →
      lease ≠ {} ∧
      ("proxy-usage:" ++ lease.ContainerID) ∉ store.keys ∧
      ("proxy-usage:" ++ lease.ContainerID) ∈ (acquireIteration q store).2.keys) := by
  obtain ⟨cid, owner, target, url, ip, region, socks, http⟩ := q
  cases cid with
  | none => simp [acquireIteration, deref]
  | some id =>
    by_cases hk : ("proxy-usage:" ++ id) ∈ store.keys
    · simp [acquireIteration, deref, database.SetLock, hk]
    · cases ip <;> cases region <;> cases socks <;> cases http <;>
        simp [acquireIteration, deref, database.SetLock, hk] <;>
        first
          | exact fun k hk' => Or.inr hk'
          | exact ⟨fun k hk' => Or.inr hk', fun _ h => absurd h (lockKey_ne_empty _)⟩

/-- One atomic step of a call never removes a key; a call that holds a lease on
`x` keeps it; and a call comes to hold a lease on `x` only by taking a key that
was free. -/
theorem advance_spec (a : Attempt) (store : database.LeaseStore) (x : String) :
    (∀ k ∈ store.keys, k ∈ (a.advance store).2.keys) ∧
    (a.succeededFor x = true → (a.advance store).1.succeededFor x = true) ∧
    (a.succeededFor x = false → (a.advance store).1.succeededFor x = true →
      ("proxy-usage:" ++ x) ∉ store.keys ∧ ("proxy-usage:" ++ x) ∈ (a.advance store).2.keys) := by
  cases a with
  | notStarted docker =>
    cases h : ListContainersByType docker "proxy" <;>
      simp [Attempt.advance, h, Attempt.succeededFor]
  | scanning remaining =>
    cases remaining with
    | nil => simp [Attempt.advance, Attempt.succeededFor]
    | cons q rest =>
      obtain ⟨h1, h2⟩ := acquireIteration_spec q store
      rcases h : acquireIteration q store with ⟨res, store'⟩
      rw [h] at h1 h2
      rcases res with e | (_ | lease)
      · simpa [Attempt.advance, h, Attempt.succeededFor] using h1
      · simpa [Attempt.advance, h, Attempt.succeededFor] using h1
      · obtain ⟨_, h3, h4⟩ := h2 lease rfl
        simp only [Attempt.advance, h, Attempt.succeededFor]
        refine ⟨h1, by simp, ?_⟩
        intro _ hs
        simp only [Bool.and_eq_true, decide_eq_true_eq] at hs
        rw [← hs.2]
        exact ⟨h3, h4⟩
  | returned result => simp [Attempt.advance]
  | crashed e => simp [Attempt.advance, Attempt.succeededFor]

theorem countP_set_balance {α : Type} (p : α → Bool) (l : List α) (i : Nat) (a a' : α)
    (h : l[i]? = some a) :
    (l.set i a').countP p + (if p a then 1 else 0) =
      l.countP p + (if p a' then 1 else 0) := by
  induction l generalizing i with
  | nil => simp at h
  | cons b l ih =>
    cases i with
    | zero =>
      simp only [List.getElem?_cons_zero, Option.some.injEq] at h
      subst h
      simp only [List.set_cons_zero, List.countP_cons]
      omega
    | succ i =>
      simp only [List.getElem?_cons_succ] at h
      have := ih i h
      simp only [List.set_cons_succ, List.countP_cons]
      omega

theorem countP_eq_zero_of_forall {α : Type} (p : α → Bool) (l : List α)
    (h : ∀ a ∈ l, p a = false) : l.countP p = 0 := by
  rw [List.countP_eq_zero]
  intro a ha
  simp [h a ha]

theorem step_advance (s : System) (i : Nat) (a : Attempt) (h : s.attempts[i]? = some a) :
    s.step (Event.advance i) =
      { store := (a.advance s.store).2, attempts := s.attempts.set i (a.advance s.store).1 } := by
  simp [System.step, h]

theorem step_advance_none (s : System) (i : Nat) (h : s.attempts[i]? = none) :
    s.step (Event.advance i) = s := by
  simp [System.step, h]

theorem release_keeps_other_key (x y : String) (store : database.LeaseStore) (hxy : y ≠ x) :
    ("proxy-usage:" ++ x) ∈ (ReleaseProxyContainer y store).keys ↔
      ("proxy-usage:" ++ x) ∈ store.keys := by
  have hne : "proxy-usage:" ++ x ≠ "proxy-usage:" ++ y :=
    fun h => hxy (lockKey_injective _ _ h).symm
  simp [ReleaseProxyContainer, database.ReleaseLock, hne]

theorem LeaseInvariant_step (x : String) (s : System) (e : Event)
    (he : e ≠ Event.release x) (hs : LeaseInvariant x s) : LeaseInvariant x (s.step e) := by
  cases e with
  | release y =>
    have hxy : y ≠ x := fun h => he (by rw [h])
    rcases hs with h0 | ⟨h1, hk⟩
    · exact Or.inl h0
    · exact Or.inr ⟨h1, (release_keeps_other_key x y s.store hxy).mpr hk⟩
  | advance i =>
    cases h : s.attempts[i]? with
    | none => rw [step_advance_none s i h]; exact hs
    | some a =>
      rw [step_advance s i a h]
      obtain ⟨hmono, hkeep, hnew⟩ := advance_spec a s.store x
      have hbal := countP_set_balance (Attempt.succeededFor x) s.attempts i a
        (a.advance s.store).1 h
      unfold LeaseInvariant
      simp only
      cases ha : Attempt.succeededFor x a with
      | true =>
        have ha' := hkeep ha
        rw [ha, ha'] at hbal
        have hc : (s.attempts.set i (a.advance s.store).1).countP (Attempt.succeededFor x) =
            s.attempts.countP (Attempt.succeededFor x) := by simpa using hbal
        rw [hc]
        rcases hs with h0 | ⟨h1, hk⟩
        · exact Or.inl h0
        · exact Or.inr ⟨h1, hmono _ hk⟩
      | false =>
        cases ha' : Attempt.succeededFor x (a.advance s.store).1 with
        | false =>
          rw [ha, ha'] at hbal
          have hc : (s.attempts.set i (a.advance s.store).1).countP (Attempt.succeededFor x) =
              s.attempts.countP (Attempt.succeededFor x) := by simpa using hbal
          rw [hc]
          rcases hs with h0 | ⟨h1, hk⟩
          · exact Or.inl h0
          · exact Or.inr ⟨h1, hmono _ hk⟩
        | true =>
          obtain ⟨hfree, hheld⟩ := hnew ha ha'
          rw [ha, ha'] at hbal
          rcases hs with h0 | ⟨_, hk⟩
          · right
            refine ⟨?_, hheld⟩
            simp only [Bool.false_eq_true, if_false, if_true] at hbal
            omega
          · exact absurd hk hfree

theorem LeaseInvariant_run (x : String) (schedule : List Event) (s : System)
    (hrel : Event.release x ∉ schedule) (hs : LeaseInvariant x s) :
    LeaseInvariant x (s.run schedule) := by
  induction schedule generalizing s with
  | nil => exact hs
  | cons e es ih =>
    have he : e ≠ Event.release x := fun h => hrel (by simp [h])
    have hes : Event.release x ∉ es := fun h => hrel (List.mem_cons_of_mem _ h)
    exact ih (s.step e) hes (LeaseInvariant_step x s e he hs)

theorem LeaseInvariant_start (x : String) (store : database.LeaseStore)
    (dockers : List DockerDaemon) : LeaseInvariant x (System.start store dockers) := by
  left
  apply countP_eq_zero_of_forall
  intro a ha
  simp only [System.start, List.mem_map] at ha
  obtain ⟨d, _, rfl⟩ := ha
  rfl

/-- The atomic steps of a call, taken alone, compute `AcquireProxyContainer`:
the loop over `proxies` is over after one step per proxy and one more. -/
theorem advanceMany_scanning (proxies : List Container) (store : database.LeaseStore)
    (n : Nat) (hn : proxies.length + 1 ≤ n) :
    Attempt.advanceMany n (Attempt.scanning proxies, store) =
      Attempt.ofOutcome (acquireLoop proxies store) := by
  have hfin : ∀ (m : Nat) (r : Except Failure ProxyContainer × database.LeaseStore),
      Attempt.advanceMany m (Attempt.ofOutcome r) = Attempt.ofOutcome r := by
    intro m
    induction m with
    | zero => intro r; rfl
    | succ m ih =>
      intro r
      obtain ⟨res, st⟩ := r
      cases res with
      | error e => exact ih (.error e, st)
      | ok result => exact ih (.ok result, st)
  induction proxies generalizing store n with
  | nil =>
    obtain ⟨m, rfl⟩ : ∃ m, n = m + 1 := ⟨n - 1, by simp at hn; omega⟩
    exact hfin m (.ok {}, store)
  | cons q rest ih =>
    obtain ⟨m, rfl⟩ : ∃ m, n = m + 1 := ⟨n - 1, by omega⟩
    have hm : rest.length + 1 ≤ m := by simp at hn; omega
    rcases h : acquireIteration q store with ⟨res, store'⟩
    rcases res with e | (_ | lease)
    · simp only [Attempt.advanceMany, Attempt.advance, acquireLoop, h]
      exact hfin m (.error e, store')
    · simp only [Attempt.advanceMany, Attempt.advance, acquireLoop, h]
      exact ih store' m hm
    · simp only [Attempt.advanceMany, Attempt.advance, acquireLoop, h]
      exact hfin m (.ok lease, store')

theorem advanceMany_notStarted (docker : DockerDaemon) (store : database.LeaseStore) :
    ∃ n, ∀ m, n ≤ m → Attempt.advanceMany m (Attempt.notStarted docker, store) =
      Attempt.ofOutcome (AcquireProxyContainer docker store) := by
  cases h : ListContainersByType docker "proxy" with
  | error e =>
    refine ⟨1, ?_⟩
    intro m hm
    obtain ⟨k, rfl⟩ : ∃ k, m = k + 1 := ⟨m - 1, by omega⟩
    simp only [Attempt.advanceMany, Attempt.advance, AcquireProxyContainer, h]
    clear hm
    induction k with
    | zero => rfl
    | succ k ih => exact ih
  | ok proxies =>
    refine ⟨proxies.length + 2, ?_⟩
    intro m hm
    obtain ⟨k, rfl⟩ : ∃ k, m = k + 1 := ⟨m - 1, by omega⟩
    simp only [Attempt.advanceMany, Attempt.advance, AcquireProxyContainer, h]
    exact advanceMany_scanning proxies store k (by omega)

theorem run_length (schedule : List Event) (s : System) :
    (s.run schedule).attempts.length = s.attempts.length := by
  induction schedule generalizing s with
  | nil => rfl
  | cons e es ih =>
    have : (s.step e).attempts.length = s.attempts.length := by
      cases e with
      | release y => rfl
      | advance i =>
        cases h : s.attempts[i]? with
        | none => rw [step_advance_none s i h]
        | some a => rw [step_advance s i a h]; simp
    exact (ih (s.step e)).trans this

theorem early_not_succeeded (dockers : List DockerDaemon) (p : Container) (a : Attempt)
    (h : Attempt.Early dockers p a) : a.succeeded = false := by
  rcases h with ⟨d, _, rfl⟩ | rfl <;> rfl

/-- One atomic step of a call in a pool whose only proxy record is `p`. -/
theorem advance_pool (dockers : List DockerDaemon) (p : Container)
    (x ip region socks http : String)
    (hd : ∀ d ∈ dockers, ListContainersByType d "proxy" = .ok [p])
    (hid : p.ContainerID = some x) (hip : p.IPAddress = some ip)
    (hregion : p.VPNRegion = some region) (hsocks : p.VPNSOCKSPort = some socks)
    (hhttp : p.VPNHTTPPort = some http)
    (a : Attempt) (store : database.LeaseStore)
    (ha : Attempt.Allowed dockers p (leaseOn x ip region socks http) a) :
    Attempt.Allowed dockers p (leaseOn x ip region socks http) (a.advance store).1 ∧
    (("proxy-usage:" ++ x) ∈ store.keys →
      (a.advance store).2.keys = store.keys ∧ (a.advance store).1.succeeded = a.succeeded) ∧
    (("proxy-usage:" ++ x) ∉ store.keys → Attempt.Early dockers p a →
      (Attempt.Early dockers p (a.advance store).1 ∧ (a.advance store).2.keys = store.keys) ∨
      ((a.advance store).1.succeeded = true ∧
        ("proxy-usage:" ++ x) ∈ (a.advance store).2.keys)) ∧
    (a.advance store).1.stepsLeft ≤ a.stepsLeft - 1 := by
  rcases ha with (⟨d, hdm, rfl⟩ | rfl) | rfl | rfl | rfl
  · have hadv : (Attempt.notStarted d).advance store = (Attempt.scanning [p], store) := by
      simp [Attempt.advance, hd d hdm]
    rw [hadv]
    exact ⟨Or.inl (Or.inr rfl), fun _ => ⟨rfl, rfl⟩, fun _ _ => Or.inl ⟨Or.inr rfl, rfl⟩,
      by simp [Attempt.stepsLeft]⟩
  · by_cases hk : ("proxy-usage:" ++ x) ∈ store.keys
    · have hadv : (Attempt.scanning [p]).advance store =
          (Attempt.scanning [], { keys := store.keys, calls := store.calls ++
            [database.StoreCall.setIfAbsent ("proxy-usage:" ++ x)] }) := by
        simp [Attempt.advance, acquireIteration_taken p store x hid hk]
      rw [hadv]
      exact ⟨Or.inr (Or.inl rfl), fun _ => ⟨rfl, rfl⟩, fun h => absurd hk h,
        by simp [Attempt.stepsLeft]⟩
    · have hadv : (Attempt.scanning [p]).advance store =
          (Attempt.returned (leaseOn x ip region socks http),
            { keys := ("proxy-usage:" ++ x) :: store.keys, calls := store.calls ++
              [database.StoreCall.setIfAbsent ("proxy-usage:" ++ x)] }) := by
        simp [Attempt.advance, leaseOn,
          acquireIteration_free p store x ip region socks http hid hip hregion hsocks hhttp hk]
      rw [hadv]
      refine ⟨Or.inr (Or.inr (Or.inr rfl)), fun h => absurd h hk,
        fun _ _ => Or.inr ⟨?_, List.mem_cons_self _ _⟩, by simp [Attempt.stepsLeft]⟩
      exact decide_eq_true (lease_ne_zero x ip region socks http)
  · have hadv : (Attempt.scanning []).advance store = (Attempt.returned {}, store) := rfl
    rw [hadv]
    refine ⟨Or.inr (Or.inr (Or.inl rfl)), fun _ => ⟨rfl, rfl⟩, ?_, by simp [Attempt.stepsLeft]⟩
    intro _ he
    rcases he with ⟨d, _, h⟩ | h
    · cases h
    · cases h
  · have hadv : (Attempt.returned {}).advance store = (Attempt.returned {}, store) := rfl
    rw [hadv]
    refine ⟨Or.inr (Or.inr (Or.inl rfl)), fun _ => ⟨rfl, rfl⟩, ?_, by simp [Attempt.stepsLeft]⟩
    intro _ he
    rcases he with ⟨d, _, h⟩ | h
    · cases h
    · cases h
  · have hadv : (Attempt.returned (leaseOn x ip region socks http)).advance store =
        (Attempt.returned (leaseOn x ip region socks http), store) := rfl
    rw [hadv]
    refine ⟨Or.inr (Or.inr (Or.inr rfl)), fun _ => ⟨rfl, rfl⟩, ?_, by simp [Attempt.stepsLeft]⟩
    intro _ he
    rcases he with ⟨d, _, h⟩ | h
    · cases h
    · cases h

theorem PoolInvariant_step (dockers : List DockerDaemon) (p : Container)
    (x ip region socks http : String)
    (hd : ∀ d ∈ dockers, ListContainersByType d "proxy" = .ok [p])
    (hid : p.ContainerID = some x) (hip : p.IPAddress = some ip)
    (hregion : p.VPNRegion = some region) (hsocks : p.VPNSOCKSPort = some socks)
    (hhttp : p.VPNHTTPPort = some http)
    (s : System) (e : Event) (he : e ≠ Event.release x)
    (hs : PoolInvariant dockers p x (leaseOn x ip region socks http) s) :
    PoolInvariant dockers p x (leaseOn x ip region socks http) (s.step e) := by
  obtain ⟨h1, h2, h3⟩ := hs
  cases e with
  | release y =>
    have hxy : y ≠ x := fun h => he (by rw [h])
    have hiff := release_keeps_other_key x y s.store hxy
    exact ⟨h1, fun hk => h2 (fun h => hk (hiff.mpr h)), fun hk => h3 (hiff.mp hk)⟩
  | advance i =>
    cases h : s.attempts[i]? with
    | none => rw [step_advance_none s i h]; exact ⟨h1, h2, h3⟩
    | some a =>
      rw [step_advance s i a h]
      have hmem : a ∈ s.attempts := List.getElem?_mem h
      obtain ⟨hA, hB, hC, _⟩ := advance_pool dockers p x ip region socks http hd hid hip
        hregion hsocks hhttp a s.store (h1 a hmem)
      have hbal := countP_set_balance Attempt.succeeded s.attempts i a (a.advance s.store).1 h
      refine ⟨?_, ?_, ?_⟩
      · intro b hb
        rcases List.mem_or_eq_of_mem_set hb with hb | rfl
        · exact h1 b hb
        · exact hA
      · intro hk b hb
        by_cases hold : ("proxy-usage:" ++ x) ∈ s.store.keys
        · exact absurd (by rw [(hB hold).1]; exact hold) hk
        · rcases hC hold (h2 hold a hmem) with ⟨hearly, _⟩ | ⟨_, hheld⟩
          · rcases List.mem_or_eq_of_mem_set hb with hb | rfl
            · exact h2 hold b hb
            · exact hearly
          · exact absurd hheld hk
      · intro hk
        show (s.attempts.set i (a.advance s.store).1).countP Attempt.succeeded = 1
        by_cases hold : ("proxy-usage:" ++ x) ∈ s.store.keys
        · rw [(hB hold).2] at hbal
          have := h3 hold
          omega
        · have hzero : s.attempts.countP Attempt.succeeded = 0 :=
            countP_eq_zero_of_forall _ _
              (fun b hb => early_not_succeeded dockers p b (h2 hold b hb))
          have ha0 : a.succeeded = false := early_not_succeeded dockers p a (h2 hold a hmem)
          rcases hC hold (h2 hold a hmem) with ⟨_, hkeys⟩ | ⟨hsucc, _⟩
          · exact absurd (by rw [← hkeys]; exact hk) hold
          · rw [ha0, hsucc, hzero] at hbal
            simpa using hbal

theorem PoolInvariant_run (dockers : List DockerDaemon) (p : Container)
    (x ip region socks http : String)
    (hd : ∀ d ∈ dockers, ListContainersByType d "proxy" = .ok [p])
    (hid : p.ContainerID = some x) (hip : p.IPAddress = some ip)
    (hregion : p.VPNRegion = some region) (hsocks : p.VPNSOCKSPort = some socks)
    (hhttp : p.VPNHTTPPort = some http)
    (schedule : List Event) (s : System) (hrel : Event.release x ∉ schedule)
    (hs : PoolInvariant dockers p x (leaseOn x ip region socks http) s) :
    PoolInvariant dockers p x (leaseOn x ip region socks http) (s.run schedule) := by
  induction schedule generalizing s with
  | nil => exact hs
  | cons e es ih =>
    have he : e ≠ Event.release x := fun h => hrel (by simp [h])
    have hes : Event.release x ∉ es := fun h => hrel (List.mem_cons_of_mem _ h)
    exact ih (s.step e) hes
      (PoolInvariant_step dockers p x ip region socks http hd hid hip hregion hsocks hhttp
        s e he hs)

/-- Each time it is scheduled, a call of the pool of one proxy gets one step
closer to its end. -/
theorem stepsLeft_run (dockers : List DockerDaemon) (p : Container)
    (x ip region socks http : String)
    (hd : ∀ d ∈ dockers, ListContainersByType d "proxy" = .ok [p])
    (hid : p.ContainerID = some x) (hip : p.IPAddress = some ip)
    (hregion : p.VPNRegion = some region) (hsocks : p.VPNSOCKSPort = some socks)
    (hhttp : p.VPNHTTPPort = some http)
    (schedule : List Event) (s : System) (hrel : Event.release x ∉ schedule)
    (hs : PoolInvariant dockers p x (leaseOn x ip region socks http) s)
    (i : Nat) (a : Attempt) (ha : s.attempts[i]? = some a) :
    ∃ a', (s.run schedule).attempts[i]? = some a' ∧
      a'.stepsLeft ≤ a.stepsLeft - schedule.count (Event.advance i) := by
  induction schedule generalizing s a with
  | nil => exact ⟨a, ha, by simp⟩
  | cons e es ih =>
    have he : e ≠ Event.release x := fun h => hrel (by simp [h])
    have hes : Event.release x ∉ es := fun h => hrel (List.mem_cons_of_mem _ h)
    have hs' := PoolInvariant_step dockers p x ip region socks http hd hid hip hregion hsocks
      hhttp s e he hs
    have hstep : ∃ b, (s.step e).attempts[i]? = some b ∧
        b.stepsLeft ≤ a.stepsLeft - (if e = Event.advance i then 1 else 0) := by
      cases e with
      | release y => exact ⟨a, ha, by simp⟩
      | advance j =>
        by_cases hji : j = i
        · subst hji
          rw [step_advance s j a ha]
          obtain ⟨_, _, _, hD⟩ := advance_pool dockers p x ip region socks http hd hid hip
            hregion hsocks hhttp a s.store (hs.1 a (List.getElem?_mem ha))
          refine ⟨(a.advance s.store).1, ?_, by simpa using hD⟩
          have hlt : j < s.attempts.length := by
            obtain ⟨hlt, _⟩ := List.getElem?_eq_some.mp ha
            exact hlt
          simp [List.getElem?_set_self hlt]
        · have hne : Event.advance j ≠ Event.advance i := fun h => hji (Event.advance.inj h)
          cases hj : s.attempts[j]? with
          | none =>
            rw [step_advance_none s j hj]
            exact ⟨a, ha, by simp [hne]⟩
          | some c =>
            rw [step_advance s j c hj]
            refine ⟨a, ?_, by simp [hne]⟩
            simp [List.getElem?_set_ne hji, ha]
    obtain ⟨b, hb, hle⟩ := hstep
    obtain ⟨a', ha', hle'⟩ := ih (s.step e) hes hs' b hb
    refine ⟨a', ha', ?_⟩
    rw [List.count_cons]
    by_cases hei : e = Event.advance i
    · simp only [hei, if_true] at hle
      simp only [hei, beq_self_eq_true, if_true]
      omega
    · simp only [hei, if_false] at hle
      have hbeq : (e == Event.advance i) = false := by simpa using hei
      simp only [hbeq]
      simp only [Bool.false_eq_true, if_false]
      omega

theorem finished_of_stepsLeft (a : Attempt) (h : a.stepsLeft = 0) : a.finished = true := by
  cases a with
  | notStarted d => simp [Attempt.stepsLeft] at h
  | scanning l => simp [Attempt.stepsLeft] at h
  | returned r => rfl
  | crashed e => rfl

theorem PoolInvariant_start (dockers : List DockerDaemon) (p : Container) (x : String)
    (lease : ProxyContainer) (store : database.LeaseStore)
    (hfree : ("proxy-usage:" ++ x) ∉ store.keys) :
    PoolInvariant dockers p x lease (System.start store dockers) := by
  have hearly : ∀ a ∈ (System.start store dockers).attempts, Attempt.Early dockers p a := by
    intro a ha
    simp only [System.start, List.mem_map] at ha
    obtain ⟨d, hdm, rfl⟩ := ha
    exact Or.inl ⟨d, hdm, rfl⟩
  exact ⟨fun a ha => Or.inl (hearly a ha), fun _ => hearly, fun hk => absurd hk hfree⟩

theorem countP_succeededFor_le (x : String) (s : System) (h : LeaseInvariant x s) :
    s.attempts.countP (Attempt.succeededFor x) ≤ 1 := by
  rcases h with h | ⟨h, _⟩ <;> omega

end containers

/-! ### The claims -/

/-- C1. Calls of `AcquireProxyContainer`, one per entry of `dockers`, run
interleaved by atomic steps (the listing, then one set-if-absent per step)
against one lease store, under any schedule, releases of other proxies
included. As long as the schedule holds no release of the proxy `x`, at most one
call has returned a lease on `x`. And for at least two calls against a pool of
one proxy `x` whose key is free at the start, once every call has been scheduled
three times all calls are over and exactly one of them has returned a lease. -/
theorem acquire_mutual_exclusion (store : database.LeaseStore) (dockers : List DockerDaemon)
    (schedule : List containers.Event) (x : String)
    (hrel : containers.Event.release x ∉ schedule) :
    ((containers.System.start store dockers).run schedule).attempts.countP
      (containers.Attempt.succeededFor x) ≤ 1 ∧
    (∀ p : containers.Container, 2 ≤ dockers.length →
      (∀ d ∈ dockers, containers.ListContainersByType d "proxy" = .ok [p]) →
      p.ContainerID = some x →
      ("proxy-usage:" ++ x) ∉ store.keys →
      (∀ i, i < dockers.length → 3 ≤ schedule.count (containers.Event.advance i)) →
      (∀ a ∈ ((containers.System.start store dockers).run schedule).attempts,
        a.finished = true) ∧
      ((containers.System.start store dockers).run schedule).attempts.countP
        containers.Attempt.succeeded = 1) := by
  refine ⟨?_, ?_⟩
  · exact containers.countP_succeededFor_le x _
      (containers.LeaseInvariant_run x schedule _ hrel
        (containers.LeaseInvariant_start x store dockers))
  · intro p hN hd hid hfree hfair
    obtain ⟨d0, hd0⟩ : ∃ d, d ∈ dockers := by
      cases dockers with
      | nil => simp at hN
      | cons d _ => exact ⟨d, List.mem_cons_self _ _⟩
    obtain ⟨id, ip, region, socks, http, hid', hip, hregion, hsocks, hhttp⟩ :=
      containers.listed_proxy_fields d0 [p] (hd d0 hd0) p (by simp)
    have hidx : id = x := by
      rw [hid] at hid'
      exact (Option.some.inj hid').symm
    subst hidx
    have hstart := containers.PoolInvariant_start dockers p id
      (containers.leaseOn id ip region socks http) store hfree
    have hinv := containers.PoolInvariant_run dockers p id ip region socks http hd hid hip
      hregion hsocks hhttp schedule _ hrel hstart
    have hlen := containers.run_length schedule (containers.System.start store dockers)
    have hlen0 : (containers.System.start store dockers).attempts.length = dockers.length := by
      simp [containers.System.start]
    have hfin : ∀ a ∈ ((containers.System.start store dockers).run schedule).attempts,
        a.finished = true := by
      intro a ha
      obtain ⟨i, hi⟩ := List.mem_iff_getElem?.mp ha
      have hilt : i < dockers.length := by
        obtain ⟨hlt, _⟩ := List.getElem?_eq_some.mp hi
        omega
      obtain ⟨a0, ha0⟩ : ∃ a0, (containers.System.start store dockers).attempts[i]? = some a0 :=
        ⟨_, List.getElem?_eq_getElem (by omega)⟩
      have ha0not : a0.stepsLeft = 3 := by
        have hmem := List.getElem?_mem ha0
        simp only [containers.System.start, List.mem_map] at hmem
        obtain ⟨d, _, rfl⟩ := hmem
        rfl
      obtain ⟨a', ha', hle⟩ := containers.stepsLeft_run dockers p id ip region socks http hd
        hid hip hregion hsocks hhttp schedule _ hrel hstart i a0 ha0
      rw [hi] at ha'
      cases Option.some.inj ha'
      have := hfair i hilt
      exact containers.finished_of_stepsLeft a (by omega)
    refine ⟨hfin, ?_⟩
    apply hinv.2.2
    by_contra hk
    have hne : ((containers.System.start store dockers).run schedule).attempts ≠ [] := by
      intro h
      rw [h] at hlen
      simp at hlen
      omega
    obtain ⟨a, ha⟩ := List.exists_mem_of_ne_nil _ hne
    have hearly := hinv.2.1 hk a ha
    have hf := hfin a ha
    rcases hearly with ⟨d, _, rfl⟩ | rfl <;> simp [containers.Attempt.finished] at hf

/-- C1 at two calls on the pool of the one proxy `cccccccccccc`, interleaved. -/
theorem acquire_mutual_exclusion_witness :
    ((containers.System.start Sample.emptyStore Sample.twoCallers).run
      Sample.interleaving).attempts.countP (containers.Attempt.succeededFor "cccccccccccc") ≤ 1 ∧
    (∀ a ∈ ((containers.System.start Sample.emptyStore Sample.twoCallers).run
      Sample.interleaving).attempts, a.finished = true) ∧
    ((containers.System.start Sample.emptyStore Sample.twoCallers).run
      Sample.interleaving).attempts.countP containers.Attempt.succeeded = 1 :=
  ⟨(acquire_mutual_exclusion Sample.emptyStore Sample.twoCallers Sample.interleaving
      "cccccccccccc" (by decide)).1,
   (acquire_mutual_exclusion Sample.emptyStore Sample.twoCallers Sample.interleaving
      "cccccccccccc" (by decide)).2 (containers.proxyRecord Sample.proxy)
      (by decide) (by decide) rfl (by decide) (by decide)⟩

/-- C2. When the proxy listing returns `pre ++ p :: post`, the keys of all of
`pre` are held and the key of `p` is free, `AcquireProxyContainer` returns the
lease of `p` (its five fields copied, LockKey = "proxy-usage:" ++ ContainerID),
the store holds the old keys plus that one key, and the set-if-absent calls
issued are those for `pre` and the one for `p`, none for `post`. -/
theorem acquire_first_fit (docker : DockerDaemon) (store : database.LeaseStore)
    (pre post : List containers.Container) (p : containers.Container)
    (hlist : containers.ListContainersByType docker "proxy" = .ok (pre ++ p :: post))
    (hpre : ∀ q ∈ pre, containers.lockKeyOf q ∈ store.keys)
    (hp : containers.lockKeyOf p ∉ store.keys) :
    ∃ id ip region socks http,
      p.ContainerID = some id ∧ p.IPAddress = some ip ∧ p.VPNRegion = some region ∧
      p.VPNSOCKSPort = some socks ∧ p.VPNHTTPPort = some http ∧
      containers.AcquireProxyContainer docker store =
        (.ok { ContainerID := id, LockKey := "proxy-usage:" ++ id, IPAddress := ip,
               VPNRegion := region, VPNSOCKSPort := socks, VPNHTTPPort := http },
         { keys := ("proxy-usage:" ++ id) :: store.keys,
           calls := store.calls ++
             pre.map (fun q => database.StoreCall.setIfAbsent (containers.lockKeyOf q)) ++
             [database.StoreCall.setIfAbsent ("proxy-usage:" ++ id)] }) := by
  obtain ⟨id, ip, region, socks, http, hid, hip, hregion, hsocks, hhttp⟩ :=
    containers.listed_proxy_fields docker _ hlist p (by simp)
  refine ⟨id, ip, region, socks, http, hid, hip, hregion, hsocks, hhttp, ?_⟩
  have hf : ∀ q ∈ pre, ∃ i, q.ContainerID = some i := by
    intro q hq
    obtain ⟨i, _, _, _, _, hi, _⟩ :=
      containers.listed_proxy_fields docker _ hlist q (by simp [hq])
    exact ⟨i, hi⟩
  have hfree : ("proxy-usage:" ++ id) ∉ store.keys := by
    simpa [containers.lockKeyOf, hid] using hp
  simp only [containers.AcquireProxyContainer, hlist]
  rw [containers.acquireLoop_skip pre (p :: post) store hf hpre]
  simp only [containers.acquireLoop]
  rw [containers.acquireIteration_free p
    { keys := store.keys,
      calls := store.calls ++
        pre.map (fun q => database.StoreCall.setIfAbsent (containers.lockKeyOf q)) }
    id ip region socks http hid hip hregion hsocks hhttp hfree]

/-- C2 at a listing of three proxy records of which the first is leased. -/
theorem acquire_first_fit_witness :
    ∃ id ip region socks http,
      (containers.proxyRecord Sample.proxy2).ContainerID = some id ∧
      (containers.proxyRecord Sample.proxy2).IPAddress = some ip ∧
      (containers.proxyRecord Sample.proxy2).VPNRegion = some region ∧
      (containers.proxyRecord Sample.proxy2).VPNSOCKSPort = some socks ∧
      (containers.proxyRecord Sample.proxy2).VPNHTTPPort = some http ∧
      containers.AcquireProxyContainer
        (DockerDaemon.running [Sample.proxy, Sample.worker, Sample.proxy2, Sample.proxy2])
        Sample.storeWithLease =
        (.ok { ContainerID := id, LockKey := "proxy-usage:" ++ id, IPAddress := ip,
               VPNRegion := region, VPNSOCKSPort := socks, VPNHTTPPort := http },
         { keys := ("proxy-usage:" ++ id) :: Sample.storeWithLease.keys,
           calls := Sample.storeWithLease.calls ++
             [containers.proxyRecord Sample.proxy].map
               (fun q => database.StoreCall.setIfAbsent (containers.lockKeyOf q)) ++
             [database.StoreCall.setIfAbsent ("proxy-usage:" ++ id)] }) :=
  acquire_first_fit
    (DockerDaemon.running [Sample.proxy, Sample.worker, Sample.proxy2, Sample.proxy2])
    Sample.storeWithLease [containers.proxyRecord Sample.proxy]
    [containers.proxyRecord Sample.proxy2] (containers.proxyRecord Sample.proxy2)
    (by decide) (by decide) (by decide)

/-- C3. When the proxy listing returns and the key of every listed proxy is
held, `AcquireProxyContainer` returns the zero-valued `ProxyContainer` (not a
failure) and the keys of the store are unchanged, one failed set-if-absent
having been issued per listed proxy; when no proxy is listed the store,
its call log included, is untouched. -/
theorem acquire_no_capacity (docker : DockerDaemon) (store : database.LeaseStore)
    (proxies : List containers.Container)
    (hlist : containers.ListContainersByType docker "proxy" = .ok proxies)
    (hall : ∀ q ∈ proxies, containers.lockKeyOf q ∈ store.keys) :
    containers.AcquireProxyContainer docker store =
      (.ok {}, { keys := store.keys,
                 calls := store.calls ++ proxies.map
                   (fun q => database.StoreCall.setIfAbsent (containers.lockKeyOf q)) }) ∧
    (proxies = [] → containers.AcquireProxyContainer docker store = (.ok {}, store)) := by
  have hf : ∀ q ∈ proxies, ∃ i, q.ContainerID = some i := by
    intro q hq
    obtain ⟨i, _, _, _, _, hi, _⟩ := containers.listed_proxy_fields docker _ hlist q hq
    exact ⟨i, hi⟩
  have h1 : containers.AcquireProxyContainer docker store =
      (.ok {}, { keys := store.keys,
                 calls := store.calls ++ proxies.map
                   (fun q => database.StoreCall.setIfAbsent (containers.lockKeyOf q)) }) := by
    simp only [containers.AcquireProxyContainer, hlist]
    have := containers.acquireLoop_skip proxies [] store hf hall
    rw [List.append_nil] at this
    rw [this]
    simp [containers.acquireLoop]
  refine ⟨h1, ?_⟩
  intro he
  rw [h1, he]
  simp

/-- C3 at a pool whose only proxy is leased. -/
theorem acquire_no_capacity_witness :
    containers.AcquireProxyContainer (DockerDaemon.running [Sample.worker, Sample.proxy])
      Sample.storeWithLease =
      (.ok {}, { keys := Sample.storeWithLease.keys,
                 calls := Sample.storeWithLease.calls ++ [containers.proxyRecord Sample.proxy].map
                   (fun q => database.StoreCall.setIfAbsent (containers.lockKeyOf q)) }) :=
  (acquire_no_capacity (DockerDaemon.running [Sample.worker, Sample.proxy])
    Sample.storeWithLease [containers.proxyRecord Sample.proxy] (by decide) (by decide)).1

/-- C4. `ReleaseProxyContainer` is total (it returns a store, never a failure);
afterwards the key "proxy-usage:" ++ id is absent and every other key is present
exactly when it was before; a second release leaves the keys as the first one
did; and releasing an identifier whose key is absent leaves the keys unchanged. -/
theorem release_idempotent (containerID : String) (store : database.LeaseStore) :
    ("proxy-usage:" ++ containerID) ∉ (containers.ReleaseProxyContainer containerID store).keys ∧
    (∀ k, k ≠ "proxy-usage:" ++ containerID →
      (k ∈ (containers.ReleaseProxyContainer containerID store).keys ↔ k ∈ store.keys)) ∧
    (containers.ReleaseProxyContainer containerID
        (containers.ReleaseProxyContainer containerID store)).keys =
      (containers.ReleaseProxyContainer containerID store).keys ∧
    (("proxy-usage:" ++ containerID) ∉ store.keys →
      (containers.ReleaseProxyContainer containerID store).keys = store.keys) := by
  refine ⟨?_, ?_, ?_, ?_⟩
  · simp [containers.ReleaseProxyContainer, database.ReleaseLock]
  · intro k hk
    simp [containers.ReleaseProxyContainer, database.ReleaseLock, hk]
  · simp [containers.ReleaseProxyContainer, database.ReleaseLock, List.filter_filter]
  · intro h
    simp only [containers.ReleaseProxyContainer, database.ReleaseLock]
    apply List.filter_eq_self.mpr
    intro k hk
    have : k ≠ "proxy-usage:" ++ containerID := fun e => h (e ▸ hk)
    simpa using this

/-- C5 (as stated, refuted). A running container whose `TaskOwner` is "PROXY"
but which is on the network "bridge" only: the "proxy" listing does not return
it, the call fails. -/
theorem role_classification_counterexample :
    mapIndex Sample.bridgeOnlyProxy.Labels "TaskOwner" = "PROXY" ∧
    containers.ListContainersByType (DockerDaemon.running [Sample.bridgeOnlyProxy]) "proxy" =
      .error Failure.nilDereference := by
  decide

/-- C5 (amended). For every list of running containers whose identifiers have
at least 12 characters: the "scraper" listing returns, in runtime order, the
records of exactly the containers whose `TaskOwner` is non-empty and not
"PROXY"; provided every container whose `TaskOwner` is "PROXY" is on
"scraper_vpn", the "proxy" listing returns, in runtime order, the records of
exactly the containers whose `TaskOwner` is "PROXY"; a container with an empty
or absent `TaskOwner` is in neither selection, and no container is in both. -/
theorem role_classification (cs : List types.Container)
    (hid : ∀ c ∈ cs, 12 ≤ c.ID.length) :
    containers.ListContainersByType (DockerDaemon.running cs) "scraper" =
      .ok ((cs.filter (fun c => decide (mapIndex c.Labels "TaskOwner" ≠ "" ∧
        mapIndex c.Labels "TaskOwner" ≠ "PROXY"))).map containers.workerRecord) ∧
    ((∀ c ∈ cs, mapIndex c.Labels "TaskOwner" = "PROXY" → containers.vpnEndpoint c ≠ none) →
      containers.ListContainersByType (DockerDaemon.running cs) "proxy" =
        .ok ((cs.filter (fun c => decide (mapIndex c.Labels "TaskOwner" = "PROXY"))).map
          containers.proxyRecord)) ∧
    (∀ c ∈ cs, mapIndex c.Labels "TaskOwner" = "" →
      c ∉ cs.filter (fun c => decide (mapIndex c.Labels "TaskOwner" ≠ "" ∧
        mapIndex c.Labels "TaskOwner" ≠ "PROXY")) ∧
      c ∉ cs.filter (fun c => decide (mapIndex c.Labels "TaskOwner" = "PROXY"))) ∧
    (∀ c, ¬ (c ∈ cs.filter (fun c => decide (mapIndex c.Labels "TaskOwner" ≠ "" ∧
        mapIndex c.Labels "TaskOwner" ≠ "PROXY")) ∧
      c ∈ cs.filter (fun c => decide (mapIndex c.Labels "TaskOwner" = "PROXY")))) := by
  refine ⟨?_, ?_, ?_, ?_⟩
  · rw [containers.ListContainersByType_running, containers.listLoop_scraper cs [] hid]
    rfl
  · intro hv
    have hv' : ∀ c ∈ cs, containers.isProxy c = true → containers.vpnEndpoint c ≠ none := by
      intro c hc hp
      exact hv c hc (by simpa [containers.isProxy, containers.taskOwner] using hp)
    rw [containers.ListContainersByType_running, containers.listLoop_proxy cs [] hid hv']
    rfl
  · intro c _ h0
    simp [List.mem_filter, h0]
  · intro c
    simp only [List.mem_filter, decide_eq_true_eq]
    rintro ⟨⟨_, _, h1⟩, _, h2⟩
    exact h1 h2

/-- C5 (amended) at a worker, an unlabelled container and a proxy. -/
theorem role_classification_witness :
    containers.ListContainersByType
      (DockerDaemon.running [Sample.worker, Sample.unrelated, Sample.proxy]) "scraper" =
      .ok [containers.workerRecord Sample.worker] ∧
    containers.ListContainersByType
      (DockerDaemon.running [Sample.worker, Sample.unrelated, Sample.proxy]) "proxy" =
      .ok [containers.proxyRecord Sample.proxy] := by
  have h := role_classification [Sample.worker, Sample.unrelated, Sample.proxy] (by decide)
  exact ⟨h.1.trans (by decide), (h.2.1 (by decide)).trans (by decide)⟩

/-- C6. For a target type among HOTEL, RESTO and AIRLINE the generated
environment holds SCRAPE_MODE=T, T_URL=url, T_NAME=name, the socks5 proxy
address, CONCURRENCY=2 and IS_PROVISIONER=true. -/
theorem config_env_contract (scrapeTarget scrapeTargetName scrapeURL uploadIdentifier
    proxyAddress proxyLocation proxyPort : String)
    (hT : scrapeTarget = "HOTEL" ∨ scrapeTarget = "RESTO" ∨ scrapeTarget = "AIRLINE") :
    (containers.ContainerConfigGenerator scrapeTarget scrapeTargetName scrapeURL uploadIdentifier
      proxyAddress proxyLocation proxyPort).Env =
      ["CONCURRENCY=2", "IS_PROVISIONER=true", "SCRAPE_MODE=" ++ scrapeTarget,
        scrapeTarget ++ "_URL=" ++ scrapeURL, scrapeTarget ++ "_NAME=" ++ scrapeTargetName,
        "PROXY_ADDRESS=socks5://" ++ proxyAddress ++ ":" ++ proxyPort] := by
  rcases hT with h | h | h <;> subst h <;>
    simp [containers.ContainerConfigGenerator, containers.targetEnv]

/-- C6 at the HOTEL scenario. -/
theorem config_env_contract_witness :
    (containers.ContainerConfigGenerator "HOTEL" "x" "https://www.tripadvisor.com/Hotel_Review-x"
      "owner" "10.0.0.5" "nl" "1080").Env =
      ["CONCURRENCY=2", "IS_PROVISIONER=true", "SCRAPE_MODE=HOTEL",
        "HOTEL_URL=https://www.tripadvisor.com/Hotel_Review-x", "HOTEL_NAME=x",
        "PROXY_ADDRESS=socks5://10.0.0.5:1080"] :=
  config_env_contract "HOTEL" "x" "https://www.tripadvisor.com/Hotel_Review-x"
    "owner" "10.0.0.5" "nl" "1080" (Or.inl rfl)

/-- C7. With a valid email and a valid URL: when the reported count of running
workers is at least 5 the handler answers with the busy message and starts no
provisioning; provisioning is started only when the count is below 5, and then
it is started once, on the generated identifier and the submitted URL. -/
theorem admission_gate (env : api.Collaborators) (url email : String)
    (hEmail : env.ValidateEmailAddress email = true)
    (hUrl : env.ValidateTripAdvisorHotelURL url = true) :
    (env.CountRunningContainer ≥ 5 →
      api.postProvision env url email =
        ({ template := "submission",
           bindings := [("Title", "Algo7 TripAdvisor Scraper"),
             ("Message", "Sorry, we are currently busy. Please try again later")] }, [])) ∧
    ((api.postProvision env url email).2 ≠ [] → env.CountRunningContainer < 5) ∧
    (env.CountRunningContainer < 5 →
      (api.postProvision env url email).2 = [api.Effect.goProvision env.GenerateUUID url]) := by
  refine ⟨?_, ?_, ?_⟩
  · intro h
    simp [api.postProvision, hEmail, hUrl, h]
  · intro h
    by_contra hc
    have h5 : env.CountRunningContainer ≥ 5 := by omega
    simp [api.postProvision, hEmail, hUrl, h5] at h
  · intro h
    have h5 : ¬ env.CountRunningContainer ≥ 5 := by omega
    simp [api.postProvision, hEmail, hUrl, h5]

/-- C7 at five reported workers. -/
theorem admission_gate_witness :
    api.postProvision Sample.busyEnv "https://www.tripadvisor.com/Hotel_Review-x" "a@b.c" =
      ({ template := "submission",
         bindings := [("Title", "Algo7 TripAdvisor Scraper"),
           ("Message", "Sorry, we are currently busy. Please try again later")] }, []) :=
  (admission_gate Sample.busyEnv "https://www.tripadvisor.com/Hotel_Review-x" "a@b.c"
    rfl rfl).1 (by decide)

/-- C8. The labels of the generated configuration are exactly
TaskOwner=ownerId, Target=targetName, vpn.region=proxyRegion; and when ownerId
is non-empty and not "PROXY", a running container carrying those labels (its
identifier having at least 12 characters, as the runtime's have) is
appended by the "scraper" pass, with TaskOwner = ownerId, TargetName =
targetName and VPNRegion = proxyRegion, and skipped by the "proxy" pass, both
wherever it stands in a listing and when it is the only running container. -/
theorem label_coupling (scrapeTarget scrapeTargetName scrapeURL uploadIdentifier
    proxyAddress proxyLocation proxyPort : String) (c : types.Container)
    (hne : uploadIdentifier ≠ "") (hnp : uploadIdentifier ≠ "PROXY")
    (hlab : c.Labels = (containers.ContainerConfigGenerator scrapeTarget scrapeTargetName
      scrapeURL uploadIdentifier proxyAddress proxyLocation proxyPort).Labels)
    (hid : 12 ≤ c.ID.length) :
    (containers.ContainerConfigGenerator scrapeTarget scrapeTargetName scrapeURL
      uploadIdentifier proxyAddress proxyLocation proxyPort).Labels =
      [("TaskOwner", uploadIdentifier), ("Target", scrapeTargetName),
        ("vpn.region", proxyLocation)] ∧
    (∀ acc, containers.listIteration "scraper" c acc =
      .ok (acc ++ [{ ContainerID := some (containers.shortID c),
                     URL := some ("/logs-viewer?container_id=" ++ containers.shortID c),
                     TaskOwner := some uploadIdentifier,
                     TargetName := some scrapeTargetName,
                     VPNRegion := some proxyLocation }])) ∧
    (∀ acc, containers.listIteration "proxy" c acc = .ok acc) ∧
    containers.ListContainersByType (DockerDaemon.running [c]) "scraper" =
      .ok [{ ContainerID := some (containers.shortID c),
             URL := some ("/logs-viewer?container_id=" ++ containers.shortID c),
             TaskOwner := some uploadIdentifier,
             TargetName := some scrapeTargetName,
             VPNRegion := some proxyLocation }] ∧
    containers.ListContainersByType (DockerDaemon.running [c]) "proxy" = .ok [] := by
  have hL : c.Labels = [("TaskOwner", uploadIdentifier), ("Target", scrapeTargetName),
      ("vpn.region", proxyLocation)] := by
    rw [hlab]; rfl
  have hOwner : mapIndex c.Labels "TaskOwner" = uploadIdentifier := by
    rw [hL]; simp [mapIndex, List.lookup]
  have hTarget : mapIndex c.Labels "Target" = scrapeTargetName := by
    rw [hL]; simp [mapIndex, List.lookup]
  have hRegion : mapIndex c.Labels "vpn.region" = proxyLocation := by
    rw [hL]; simp [mapIndex, List.lookup]
  have hw : containers.isWorker c = true := by
    simp [containers.isWorker, containers.taskOwner, hOwner, hne, hnp]
  have hp : containers.isProxy c = false := by
    simp [containers.isProxy, containers.taskOwner, hOwner, hnp]
  have hrec : containers.workerRecord c =
      { ContainerID := some (containers.shortID c),
        URL := some ("/logs-viewer?container_id=" ++ containers.shortID c),
        TaskOwner := some uploadIdentifier,
        TargetName := some scrapeTargetName,
        VPNRegion := some proxyLocation } := by
    simp [containers.workerRecord, containers.taskOwner, hOwner, hTarget, hRegion]
  have h1 : ∀ acc, containers.listIteration "scraper" c acc =
      .ok (acc ++ [containers.workerRecord c]) := by
    intro acc
    rw [containers.listIteration_scraper c acc hid, hw]
    rfl
  have h2 : ∀ acc, containers.listIteration "proxy" c acc = .ok acc :=
    fun acc => containers.listIteration_proxy_skip c acc hid hp
  refine ⟨rfl, ?_, h2, ?_, ?_⟩
  · intro acc
    rw [h1 acc, hrec]
  · rw [containers.ListContainersByType_running]
    simp only [containers.listLoop, h1]
    rw [hrec]
    rfl
  · rw [containers.ListContainersByType_running]
    simp only [containers.listLoop, h2]

/-- C8 at a container launched from a generated HOTEL configuration. -/
theorem label_coupling_witness :
    containers.ListContainersByType (DockerDaemon.running [Sample.launched]) "scraper" =
      .ok [{ ContainerID := some (containers.shortID Sample.launched),
             URL := some ("/logs-viewer?container_id=" ++ containers.shortID Sample.launched),
             TaskOwner := some "u-1",
             TargetName := some "Ritz",
             VPNRegion := some "nl" }] ∧
    containers.ListContainersByType (DockerDaemon.running [Sample.launched]) "proxy" = .ok [] :=
  (label_coupling "HOTEL" "Ritz" "https://www.tripadvisor.com/Hotel_Review-x" "u-1" "10.0.0.5"
    "nl" "1080" Sample.launched (by decide) (by decide) rfl (by decide)).2.2.2

/-- C9 (the code at the failing input). With no running container the loop
body, and with it the check of the role, is never reached: whatever the role
argument, the call returns the empty list. -/
theorem list_unknown_role_empty_listing (containerType : String) :
    containers.ListContainersByType (DockerDaemon.running []) containerType = .ok [] := by
  simp [containers.ListContainersByType, DockerDaemon.running, utils.ErrorHandler,
    containers.listLoop]

/-- On a non-empty listing (first identifier of at least 12 characters) a role
other than "scraper" and "proxy" is rejected in the first pass of the loop. -/
theorem list_unknown_role_nonempty (containerType : String) (c : types.Container)
    (rest : List types.Container) (h : 12 ≤ c.ID.length)
    (hs : containerType ≠ "scraper") (hp : containerType ≠ "proxy") :
    containers.ListContainersByType (DockerDaemon.running (c :: rest)) containerType =
      .error (Failure.fatal "Invalid container type") := by
  simp [containers.ListContainersByType_running, containers.listLoop,
    containers.listIteration_unknown containerType c [] h hs hp]

/-- C10. When the listing holds a container whose `TaskOwner` is "PROXY" and
which is not on "scraper_vpn", the "proxy" listing fails; and when it returns,
it returns the records of the "PROXY" containers in order, each of them on
"scraper_vpn" and each record carrying the address its container has there. -/
theorem proxy_network_required (docker : DockerDaemon) (cs : List types.Container)
    (hl : docker.containerList = .ok cs) :
    ((∃ c ∈ cs, mapIndex c.Labels "TaskOwner" = "PROXY" ∧ containers.vpnEndpoint c = none) →
      ∃ e, containers.ListContainersByType docker "proxy" = .error e) ∧
    (∀ rs, containers.ListContainersByType docker "proxy" = .ok rs →
      rs = (cs.filter (fun c => decide (mapIndex c.Labels "TaskOwner" = "PROXY"))).map
        containers.proxyRecord ∧
      ∀ c ∈ cs, mapIndex c.Labels "TaskOwner" = "PROXY" →
        ∃ endpoint, containers.vpnEndpoint c = some endpoint ∧
          (containers.proxyRecord c).IPAddress = some endpoint.IPAddress) := by
  have key : ∀ rs, containers.ListContainersByType docker "proxy" = .ok rs →
      (∀ c ∈ cs, containers.isProxy c = true → containers.vpnEndpoint c ≠ none) ∧
      rs = (cs.filter containers.isProxy).map containers.proxyRecord := by
    intro rs h
    obtain ⟨cs', hcs', hv, hrs⟩ := containers.ListContainersByType_proxy_ok docker rs h
    rw [hl] at hcs'
    cases Except.ok.inj hcs'
    exact ⟨hv, hrs⟩
  refine ⟨?_, ?_⟩
  · rintro ⟨c, hc, hp, he⟩
    cases hres : containers.ListContainersByType docker "proxy" with
    | error e => exact ⟨e, rfl⟩
    | ok rs =>
      exfalso
      exact (key rs hres).1 c hc (by simp [containers.isProxy, containers.taskOwner, hp]) he
  · intro rs h
    obtain ⟨hv, hrs⟩ := key rs h
    refine ⟨hrs, ?_⟩
    intro c hc hp
    obtain ⟨endpoint, he⟩ := Option.ne_none_iff_exists'.mp
      (hv c hc (by simp [containers.isProxy, containers.taskOwner, hp]))
    exact ⟨endpoint, he, by simp [containers.proxyRecord, he]⟩

/-- C10 at a listing that holds a proxy on "bridge" only. -/
theorem proxy_network_required_witness :
    ∃ e, containers.ListContainersByType
      (DockerDaemon.running [Sample.worker, Sample.bridgeOnlyProxy]) "proxy" = .error e :=
  (proxy_network_required (DockerDaemon.running [Sample.worker, Sample.bridgeOnlyProxy])
    [Sample.worker, Sample.bridgeOnlyProxy] rfl).1
    ⟨Sample.bridgeOnlyProxy, by decide, by decide, by decide⟩
